import Mathlib

/-!
A shallow embedding of the remote-account dereferencing core of
`internal/federation/dereferencing/account.go` (GoToSocial), together with
theorems settling the specification claims about it.

Conventions:
- Machine time (`time.Time`) is modelled as `Nat`; the zero value is `0`
  (`IsZero` becomes `= 0`).  `time.Now()` is a single value `now` carried in
  the collaborator environment `Deps`.
- Collaborator interfaces (data store, transport, converter, media manager)
  are oracle functions stored in `Deps`.
- Calls to collaborators that the claims mention (transport calls, data-store
  writes, worker enqueues) are recorded in an effect list, returned alongside
  each function's result.
- Go errors are modelled by `Err`, carrying the information the source
  inspects: an HTTP status code (`gtserror.StatusCode`), the
  `db.ErrAlreadyExists` identity, and the `Unretrievable` flag.  Wrapping with
  `gtserror.Newf` preserves all of these, so wrapping is the identity.
- Pointer mutation matters: `enrichAccount` writes `account.URI` /
  `account.Domain` through the caller's pointer, and `enrichAccountSafely`
  stamps `account.FetchedAt` through it.  Each embedded function therefore
  also returns the final state of the struct the caller's pointer references
  (field `accPtr`).
-/

namespace Deref

/-- A parsed URL (`net/url.URL`): scheme, host, and the remainder
(path/query).  `toStr` is `URL.String()`. -/
structure Url where
  scheme : String
  host : String
  rest : String
deriving Repr, DecidableEq

def Url.toStr (u : Url) : String :=
  u.scheme ++ "://" ++ u.host ++ u.rest

/-- `gtsmodel.Emoji`, restricted to the fields the dereferencer reads. -/
structure Emoji where
  id : String
  uri : String
deriving Repr, DecidableEq

/-- `gtsmodel.Account`, restricted to the fields the dereferencer reads or
writes.  Times are `Nat` (0 = Go zero time). -/
structure Account where
  id : String := ""
  uri : String := ""
  url : String := ""
  domain : String := ""
  username : String := ""
  fetchedAt : Nat := 0
  createdAt : Nat := 0
  updatedAt : Nat := 0
  suspendedAt : Nat := 0
  instanceActor : Bool := false
  language : String := ""
  avatarRemoteURL : String := ""
  avatarMediaAttachmentID : String := ""
  headerRemoteURL : String := ""
  headerMediaAttachmentID : String := ""
  emojis : List Emoji := []
  emojiIDs : List String := []
  featuredCollectionURI : String := ""
deriving Repr, DecidableEq

/-- Server configuration: local host, account domain, and the default account
freshness window (`DefaultAccountFreshness`, a package variable outside the
provided source; the spec describes it as a fixed configurable duration). -/
structure Config where
  host : String
  accountDomain : String
  defaultAccountFreshness : Nat
deriving Repr, DecidableEq

/-- Modelled from the spec: `Account.IsSuspended` (gtsmodel methods are not in
the provided sources) — "IsSuspended (administratively blocked)", i.e. a
non-zero suspension timestamp. -/
def Account.IsSuspended (a : Account) : Bool :=
  a.suspendedAt ≠ 0

/-- Modelled from the spec: `Account.IsNew` — "IsNew (no DB row yet — ID
assigned but unpersisted)".  A stub has the zero creation time; persisting an
account always sets a non-zero creation time first. -/
def Account.IsNew (a : Account) : Bool :=
  a.createdAt = 0

/-- Modelled from the spec: `Account.IsLocal` — "IsLocal (domain matches this
server)"; the empty domain marks local rows in the data store. -/
def Account.IsLocal (cfg : Config) (a : Account) : Bool :=
  a.domain = "" ∨ a.domain = cfg.host ∨ a.domain = cfg.accountDomain

/-- Modelled from the spec: `Account.IsInstance` — "a well-known system
identity (e.g., a server's own introspective actor)", carried here as the
`instanceActor` flag. -/
def Account.IsInstance (a : Account) : Bool :=
  a.instanceActor

/-- `gtsmodel.MediaAttachment`, restricted to the field read here. -/
structure Attachment where
  remoteURL : String
deriving Repr, DecidableEq

/-- `gtsmodel.Status`, restricted to the fields the featured-collection
reconciliation reads or writes. -/
structure Status where
  id : String := ""
  uri : String := ""
  accountURI : String := ""
  boostOfID : String := ""
  pinnedAt : Nat := 0
deriving Repr, DecidableEq

/-- A Go error as inspected by this source file: the HTTP status code
recoverable via `gtserror.StatusCode` (0 when none is attached), whether the
error is `db.ErrAlreadyExists` (checked with `errors.Is`), and whether
`gtserror.Unretrievable` has been set.  `gtserror.Newf` wrapping preserves
all three, so wrapping needs no modelling. -/
structure Err where
  status : Nat := 0
  alreadyExists : Bool := false
  unretrievable : Bool := false
deriving Repr, DecidableEq

/-- `gtserror.SetUnretrievable`. -/
def Err.setUnretrievable (e : Err) : Err :=
  { e with unretrievable := true }

/-- Errors the data store can return from a write (`Put`/`Update`): the
`db.ErrAlreadyExists` conflict, or some other database error.  Database
errors carry no HTTP status code, so `gtserror.StatusCode` yields 0 on
them. -/
inductive DbWriteErr where
  | alreadyExists
  | other
deriving Repr, DecidableEq

/-- Conversion of a data-store write error to the generic error shape. -/
def DbWriteErr.toErr : DbWriteErr → Err
  | .alreadyExists => { alreadyExists := true }
  | .other => {}

/-- The ActivityPub wire object for an account (`ap.Accountable`), reduced to
what this file extracts from it directly: `ap.GetJSONLDId`.  Everything else
is read through the converter oracle. -/
structure ApubAcc where
  idUrl : Option Url := none
  tag : String := ""
deriving Repr, DecidableEq

/-- A transport dereference response: the final request URL after redirects,
and the body (opaque, passed to the resolver oracle). -/
structure DerefResp where
  finalUrl : Url
  body : String := ""
deriving Repr, DecidableEq

/-- Outcome of `getStatusByURI` as used by the featured-collection pass: it
"may return an existing model *with* an error from attempted update".  -/
inductive StatusResult where
  | failed
  | stale (s : Status)
  | found (s : Status)
deriving Repr, DecidableEq

/-- Observable collaborator calls the claims talk about: transport calls,
data-store writes, population of related models, and async worker enqueues. -/
inductive Effect where
  | finger (username domain : String)
  | deref (uri : String)
  | derefMedia (url : String)
  | putAccount (a : Account)
  | updateAccount (a : Account) (fields : List String)
  | updateStatus (s : Status) (fields : List String)
  | populateAccount (a : Account)
  | enqueueFeatured (a : Account)
deriving Repr, DecidableEq

/-- Whether an effect is a call on the Transport collaborator
(webfinger, dereference, or media dereference). -/
def Effect.isTransport : Effect → Bool
  | .finger _ _ => true
  | .deref _ => true
  | .derefMedia _ => true
  | _ => false

/-- Whether an effect is a data-store write of an account row
(`PutAccount` or `UpdateAccount`). -/
def Effect.isAccountWrite : Effect → Bool
  | .putAccount _ => true
  | .updateAccount _ _ => true
  | _ => false

/-- The collaborator environment: configuration, the clock, the ULID
generator, and oracle functions for every external interface the
dereferencer calls.  Data-store reads return `.ok none` for
`db.ErrNoEntries` and `.error e` for real database errors. -/
structure Deps where
  cfg : Config
  now : Nat
  newULID : String
  transportErr : Option Err
  finger : String → String → Except Err (String × Url)
  dbAccountByURI : String → Except Err (Option Account)
  dbAccountByURL : String → Except Err (Option Account)
  dbAccountByUsernameDomain : String → String → Except Err (Option Account)
  isDomainBlocked : String → Except Err Bool
  deref : String → Except Err DerefResp
  resolveAccountable : String → Except Err ApubAcc
  convert : ApubAcc → String → Except Err Account
  parseUrl : String → Option Url
  getEmojiByID : String → Except Err Emoji
  populateEmojis : List Emoji → Except Err (List Emoji)
  getAttachmentByID : String → Except Err (Option Attachment)
  loadAttachment : String → Except Err String
  putAccount : Account → Option DbWriteErr
  updateAccount : Account → List String → Option DbWriteErr
  populateErr : Option Err
  derefCollection : String → Except Err (List (Option Url))
  pinnedStatuses : String → Except Err (List Status)
  getStatusByURI : String → StatusResult
  updateStatusErr : Status → Option Err

/-- `accountFresh` from the source: freshness policy for accounts.
`window = none` falls back to the default window from config; the final test
is `!time.Now().After(FetchedAt + window)`. -/
def accountFresh (cfg : Config) (account : Account) (window : Option Nat)
    (now : Nat) : Bool :=
  let w := window.getD cfg.defaultAccountFreshness
  if account.IsLocal cfg then
    true
  else if account.IsSuspended then
    true
  else if account.IsInstance ∧ ¬ account.IsNew then
    true
  else
    ¬ (account.fetchedAt + w < now)

/-- Source helper inside `fetchRemoteAccountEmojis`: when the account has
more emoji IDs than emoji models, each emoji is looked up in the database by
ID (first error aborts). -/
def lookupEmojis (deps : Deps) : List String → Except Err (List Emoji)
  | [] => .ok []
  | eid :: rest =>
    match deps.getEmojiByID eid with
    | .error e => .error e
    | .ok em =>
      match lookupEmojis deps rest with
      | .error e => .error e
      | .ok ems => .ok (em :: ems)

/-- The change decision inside `fetchRemoteAccountEmojis`, comparing the
previous ("maybe") and freshly fetched ("got") emoji lists exactly as the two
source loops do: loop 1 tests whether every maybe-emoji URI is still present
among the got emojis (URI comparison only); loop 2 tests whether every got
emoji was already present among the maybe emojis, comparing both URI and ID. -/
def emojiChanged (maybeEmojis gotEmojis : List Emoji) : Bool :=
  if maybeEmojis.length = 0 ∧ gotEmojis.length = 0 then
    false
  else if maybeEmojis.length ≠ gotEmojis.length then
    true
  else if maybeEmojis.any
      (fun me => ¬ gotEmojis.any (fun ge => me.uri = ge.uri)) then
    true
  else if gotEmojis.any
      (fun ge => ¬ maybeEmojis.any
        (fun me => ge.uri = me.uri ∧ ge.id = me.id)) then
    true
  else
    false

/-- `fetchRemoteAccountEmojis` from the source.  Returns the `changed` flag
and the target account after its (pointer) mutations: when a change is
detected the account's emoji list and emoji-ID list are replaced wholesale
with the got values; otherwise the account is untouched. -/
def fetchRemoteAccountEmojis (deps : Deps) (targetAccount : Account) :
    Except Err (Bool × Account) :=
  let maybeEmojis0 := targetAccount.emojis
  let maybeEmojiIDs := targetAccount.emojiIDs
  let maybeRes : Except Err (List Emoji) :=
    if maybeEmojis0.length < maybeEmojiIDs.length then
      lookupEmojis deps maybeEmojiIDs
    else
      .ok maybeEmojis0
  match maybeRes with
  | .error e => .error e
  | .ok maybeEmojis =>
    match deps.populateEmojis maybeEmojis with
    | .error e => .error e
    | .ok gotEmojis =>
      let gotEmojiIDs := gotEmojis.map (fun e => e.id)
      if emojiChanged maybeEmojis gotEmojis then
        .ok (true, { targetAccount with
          emojis := gotEmojis, emojiIDs := gotEmojiIDs })
      else
        .ok (false, targetAccount)

/-- `fetchRemoteAccountAvatar` from the source.  Returns the latest account
after its (pointer) mutations, the error if any (the caller only logs it),
and the effects.  The previous attachment ID is carried over from the
existing account before any fetch is attempted; it is replaced only once a
new attachment has loaded successfully. -/
def fetchRemoteAccountAvatar (deps : Deps) (existing latestAcc : Account) :
    Account × Option Err × List Effect :=
  if latestAcc.avatarRemoteURL = "" then
    (latestAcc, none, [])
  else
    let latest1 := { latestAcc with
      avatarMediaAttachmentID := existing.avatarMediaAttachmentID }
    let keep : Option (Option Err) :=
      if latest1.avatarMediaAttachmentID ≠ "" ∧
          existing.avatarRemoteURL = latest1.avatarRemoteURL then
        match deps.getAttachmentByID existing.avatarMediaAttachmentID with
        | .error e => some (some e)
        | .ok attachment =>
          match attachment with
          | some m =>
            if m.remoteURL = latest1.avatarRemoteURL then some none else none
          | none => none
      else
        none
    match keep with
    | some e? => (latest1, e?, [])
    | none =>
      match deps.parseUrl latest1.avatarRemoteURL with
      | none => (latest1, some {}, [])
      | some _ =>
        match deps.loadAttachment latest1.avatarRemoteURL with
        | .error e =>
          (latest1, some e, [Effect.derefMedia latest1.avatarRemoteURL])
        | .ok attachmentID =>
          ({ latest1 with avatarMediaAttachmentID := attachmentID },
            none, [Effect.derefMedia latest1.avatarRemoteURL])

/-- `fetchRemoteAccountHeader` from the source; identical in structure to the
avatar fetch but over the header fields. -/
def fetchRemoteAccountHeader (deps : Deps) (existing latestAcc : Account) :
    Account × Option Err × List Effect :=
  if latestAcc.headerRemoteURL = "" then
    (latestAcc, none, [])
  else
    let latest1 := { latestAcc with
      headerMediaAttachmentID := existing.headerMediaAttachmentID }
    let keep : Option (Option Err) :=
      if latest1.headerMediaAttachmentID ≠ "" ∧
          existing.headerRemoteURL = latest1.headerRemoteURL then
        match deps.getAttachmentByID existing.headerMediaAttachmentID with
        | .error e => some (some e)
        | .ok attachment =>
          match attachment with
          | some m =>
            if m.remoteURL = latest1.headerRemoteURL then some none else none
          | none => none
      else
        none
    match keep with
    | some e? => (latest1, e?, [])
    | none =>
      match deps.parseUrl latest1.headerRemoteURL with
      | none => (latest1, some {}, [])
      | some _ =>
        match deps.loadAttachment latest1.headerRemoteURL with
        | .error e =>
          (latest1, some e, [Effect.derefMedia latest1.headerRemoteURL])
        | .ok attachmentID =>
          ({ latest1 with headerMediaAttachmentID := attachmentID },
            none, [Effect.derefMedia latest1.headerRemoteURL])

/-- The webfinger block at the top of `enrichAccount` (entered only when the
account has a username).  Produces the working account (possibly switched to
a row rediscovered under the webfingered domain), the updated request URI,
and the state of the struct behind the caller's pointer: the URI/domain
write-through happens on the original struct unless the working account was
switched to a rediscovered row first. -/
def enrichWebfinger (deps : Deps) (uri? : Option Url) (account : Account) :
    Except Err (Account × Option Url × Account) × List Effect :=
  if account.username = "" then
    (.ok (account, uri?, account), [])
  else
    let fx := [Effect.finger account.username account.domain]
    match deps.finger account.username account.domain with
    | .error e =>
      if account.uri = "" then
        (.error e.setUnretrievable, fx)
      else
        (.ok (account, uri?, account), fx)
    | .ok (accDomain, accURI) =>
      if account.domain ≠ accDomain then
        match deps.dbAccountByUsernameDomain account.username accDomain with
        | .error e => (.error e, fx)
        | .ok (some alreadyAcc) =>
          (.ok ({ alreadyAcc with uri := accURI.toStr, domain := accDomain },
            some accURI, account), fx)
        | .ok none =>
          (.ok ({ account with uri := accURI.toStr, domain := accDomain },
            some accURI,
            { account with uri := accURI.toStr, domain := accDomain }), fx)
      else
        (.ok ({ account with uri := accURI.toStr, domain := accDomain },
          some accURI,
          { account with uri := accURI.toStr, domain := accDomain }), fx)

/-- URI fallback in `enrichAccount`: when no URI was provided or found, parse
it from the account, insisting on an http/https scheme. -/
def resolveUri (deps : Deps) (account : Account) (uri? : Option Url) :
    Except Err Url :=
  match uri? with
  | some u => .ok u
  | none =>
    match deps.parseUrl account.uri with
    | none => .error (Err.setUnretrievable {})
    | some u =>
      if u.scheme ≠ "http" ∧ u.scheme ≠ "https" then
        .error (Err.setUnretrievable {})
      else
        .ok u

/-- First stage of `enrichAccount`: transport construction, webfinger,
URI resolution, and the blocked-domain check. -/
def enrichPrepare (deps : Deps) (uri? : Option Url) (account : Account) :
    Except Err (Account × Url) × Account × List Effect :=
  match deps.transportErr with
  | some e => (.error e, account, [])
  | none =>
    match enrichWebfinger deps uri? account with
    | (.error e, fx) => (.error e, account, fx)
    | (.ok (acc1, uriOpt, ptr), fx) =>
      match resolveUri deps acc1 uriOpt with
      | .error e => (.error e, ptr, fx)
      | .ok uri =>
        match deps.isDomainBlocked uri.host with
        | .error e => (.error e, ptr, fx)
        | .ok true => (.error {}, ptr, fx)
        | .ok false => (.ok (acc1, uri), ptr, fx)

/-- Second stage of `enrichAccount`: when no wire object was supplied,
dereference the account over the transport, resolve the body, and on a
redirect re-look-up the account under the final URI (switching to an
existing row when found) and continue with the final URI. -/
def enrichFetch (deps : Deps) (account : Account) (uri : Url)
    (apub? : Option ApubAcc) :
    Except Err (Account × Url × ApubAcc) × List Effect :=
  match apub? with
  | some apub => (.ok (account, uri, apub), [])
  | none =>
    let fx := [Effect.deref uri.toStr]
    match deps.deref uri.toStr with
    | .error e => (.error e.setUnretrievable, fx)
    | .ok rsp =>
      match deps.resolveAccountable rsp.body with
      | .error e => (.error e, fx)
      | .ok apub =>
        if rsp.finalUrl.toStr ≠ uri.toStr then
          match deps.dbAccountByURI rsp.finalUrl.toStr with
          | .error e => (.error e, fx)
          | .ok (some alreadyAcc) => (.ok (alreadyAcc, rsp.finalUrl, apub), fx)
          | .ok none => (.ok (account, rsp.finalUrl, apub), fx)
        else
          (.ok (account, uri, apub), fx)

/-- Third stage of `enrichAccount`: convert the wire object to the internal
model, and when the working account had no username, derive the
authoritative domain with a second webfinger on the wire object's id host
(failure here is fatal). -/
def enrichConvert (deps : Deps) (account : Account) (_uri : Url)
    (apub : ApubAcc) : Except Err Account × List Effect :=
  match deps.convert apub account.domain with
  | .error e => (.error e, [])
  | .ok latestAcc =>
    if account.username = "" then
      match apub.idUrl with
      | none => (.error {}, [])
      | some idu =>
        let fx := [Effect.finger latestAcc.username idu.host]
        match deps.finger latestAcc.username idu.host with
        | .error e => (.error e, fx)
        | .ok (dom, _) => (.ok { latestAcc with domain := dom }, fx)
    else
      (.ok latestAcc, [])

/-- Validation in `enrichAccount` immediately before persistence: reject an
empty authoritative domain, and reject when neither the URI nor the URL of
the converted account equals the URI it was actually fetched from. -/
def enrichCheckLatest (latestAcc : Account) (uriStr : String) : Option Err :=
  if latestAcc.domain = "" then
    some {}
  else if latestAcc.uri ≠ uriStr ∧ latestAcc.url ≠ uriStr then
    some {}
  else
    none

/-- The insert-or-update tail of `enrichAccount`: set creation/update times
and either `Put` the new row or `Update` the existing one, carrying over the
stored language on update. -/
def enrichStore (deps : Deps) (account latest4 : Account) (apub : ApubAcc) :
    Except Err (Account × ApubAcc) × List Effect :=
  if account.IsNew then
    let latest5 :=
      if latest4.createdAt = 0 then
        { latest4 with createdAt := latest4.fetchedAt }
      else latest4
    let latest6 := { latest5 with updatedAt := latest5.fetchedAt }
    match deps.putAccount latest6 with
    | some dbe => (.error dbe.toErr, [Effect.putAccount latest6])
    | none => (.ok (latest6, apub), [Effect.putAccount latest6])
  else
    let latest5 :=
      if latest4.createdAt = 0 then
        { latest4 with createdAt := account.createdAt }
      else latest4
    let latest6 := { latest5 with
      updatedAt := latest5.fetchedAt, language := account.language }
    match deps.updateAccount latest6 [] with
    | some dbe => (.error dbe.toErr, [Effect.updateAccount latest6 []])
    | none => (.ok (latest6, apub), [Effect.updateAccount latest6 []])

/-- Final stage of `enrichAccount`: carry over the internal ID, stamp
`FetchedAt = now`, fetch avatar/header/emojis (errors there are only
logged), then insert (new account) or update (existing account) the row. -/
def enrichPersist (deps : Deps) (account latestAcc0 : Account)
    (apub : ApubAcc) : Except Err (Account × ApubAcc) × List Effect :=
  let latest1 := { latestAcc0 with id := account.id, fetchedAt := deps.now }
  let avatarRes := fetchRemoteAccountAvatar deps account latest1
  let headerRes := fetchRemoteAccountHeader deps account avatarRes.1
  let latest3 := headerRes.1
  let latest4 :=
    match fetchRemoteAccountEmojis deps latest3 with
    | .error _ => latest3
    | .ok r => r.2
  let stored := enrichStore deps account latest4 apub
  (stored.1, avatarRes.2.2 ++ headerRes.2.2 ++ stored.2)

/-- Result of `enrichAccount`: the returned (account, wire object) or error,
the final state of the struct behind the caller's account pointer, and the
collaborator calls made. -/
structure EnrichRes where
  res : Except Err (Account × ApubAcc)
  accPtr : Account
  effects : List Effect
deriving Repr

/-- `enrichAccount` from the source, as the composition of its stages. -/
def enrichAccount (deps : Deps) (uri? : Option Url) (account : Account)
    (apub? : Option ApubAcc) : EnrichRes :=
  match enrichPrepare deps uri? account with
  | (.error e, ptr, fx1) => ⟨.error e, ptr, fx1⟩
  | (.ok (acc1, uri1), ptr, fx1) =>
    match enrichFetch deps acc1 uri1 apub? with
    | (.error e, fx2) => ⟨.error e, ptr, fx1 ++ fx2⟩
    | (.ok (acc2, uri2, apub), fx2) =>
      match enrichConvert deps acc2 uri2 apub with
      | (.error e, fx3) => ⟨.error e, ptr, fx1 ++ fx2 ++ fx3⟩
      | (.ok latest, fx3) =>
        match enrichCheckLatest latest uri2.toStr with
        | some e => ⟨.error e, ptr, fx1 ++ fx2 ++ fx3⟩
        | none =>
          match enrichPersist deps acc2 latest apub with
          | (.error e, fx4) => ⟨.error e, ptr, fx1 ++ fx2 ++ fx3 ++ fx4⟩
          | (.ok r, fx4) => ⟨.ok r, ptr, fx1 ++ fx2 ++ fx3 ++ fx4⟩

/-- Result of `enrichAccountSafely` (and of `RefreshAccount`): like
`EnrichRes` but the wire object may be absent (cache hits and the
already-exists race both return none). -/
structure SafeRes where
  res : Except Err (Account × Option ApubAcc)
  accPtr : Account
  effects : List Effect
deriving Repr

/-- `enrichAccountSafely` from the source: the suspension noop, the call to
`enrichAccount` under the per-URI lock, the `FetchedAt` stamp on failed
attempts with an HTTP status ≥ 400 for accounts that already existed, and
the `db.ErrAlreadyExists` re-read of the winning row by the account's
(possibly webfinger-updated) URI. -/
def enrichAccountSafely (deps : Deps) (uri? : Option Url) (account : Account)
    (apub? : Option ApubAcc) : SafeRes :=
  if account.IsSuspended then
    ⟨.ok (account, none), account, []⟩
  else
    let r := enrichAccount deps uri? account apub?
    match r.res with
    | .ok (latest, apub) => ⟨.ok (latest, some apub), r.accPtr, r.effects⟩
    | .error e =>
      if 400 ≤ e.status ∧ account.IsNew then
        ⟨.error e, r.accPtr, r.effects⟩
      else
        let stamped :=
          if 400 ≤ e.status then
            ({ r.accPtr with fetchedAt := deps.now },
              r.effects ++
                [Effect.updateAccount
                  { r.accPtr with fetchedAt := deps.now } ["fetched_at"]])
          else
            (r.accPtr, r.effects)
        if e.alreadyExists then
          match deps.dbAccountByURI stamped.1.uri with
          | .ok (some winner) => ⟨.ok (winner, none), stamped.1, stamped.2⟩
          | .ok none => ⟨.error {}, stamped.1, stamped.2⟩
          | .error e2 => ⟨.error e2, stamped.1, stamped.2⟩
        else
          ⟨.error e, stamped.1, stamped.2⟩

/-- Result of the by-URI / by-handle lookups: the returned (account, wire
object) or error, and the collaborator calls made. -/
structure GetRes where
  res : Except Err (Account × Option ApubAcc)
  effects : List Effect
deriving Repr

/-- `getAccountByURI` from the source (package-internal form): data-store
lookup by URI then URL, the local-host short-circuit, stub construction for
unseen remote URIs, the freshness check, and the fallback to the existing
row when enrichment of a stale account fails. -/
def getAccountByURI (deps : Deps) (uri : Url) : GetRes :=
  let uriStr := uri.toStr
  match deps.dbAccountByURI uriStr with
  | .error e => ⟨.error e, []⟩
  | .ok first =>
    let second : Except Err (Option Account) :=
      match first with
      | some a => .ok (some a)
      | none => deps.dbAccountByURL uriStr
    match second with
    | .error e => ⟨.error e, []⟩
    | .ok none =>
      if uri.host = deps.cfg.host ∨ uri.host = deps.cfg.accountDomain then
        ⟨.error (Err.setUnretrievable {}), []⟩
      else
        let stub : Account :=
          { id := deps.newULID, domain := uri.host, uri := uriStr }
        let r := enrichAccountSafely deps (some uri) stub none
        ⟨r.res, r.effects⟩
    | .ok (some account) =>
      if accountFresh deps.cfg account none deps.now then
        ⟨.ok (account, none), [Effect.populateAccount account]⟩
      else
        let r := enrichAccountSafely deps (some uri) account none
        match r.res with
        | .error _ => ⟨.ok (r.accPtr, none), r.effects⟩
        | .ok (latest, apub?) => ⟨.ok (latest, apub?), r.effects⟩

/-- `GetAccountByURI` from the source: the public wrapper, which enqueues the
featured-collection re-dereference whenever a wire object was returned. -/
def GetAccountByURI (deps : Deps) (uri : Url) : GetRes :=
  let r := getAccountByURI deps uri
  match r.res with
  | .ok (account, some apub) =>
    ⟨.ok (account, some apub), r.effects ++ [Effect.enqueueFeatured account]⟩
  | _ => r

/-- `RefreshAccount` from the source: freshness check before anything else
(when no wire object was supplied), URI parse, enrichment, error
propagation, and the featured-collection enqueue on a real update. -/
def RefreshAccount (deps : Deps) (account : Account) (apub? : Option ApubAcc)
    (window : Option Nat) : SafeRes :=
  if apub?.isNone ∧ accountFresh deps.cfg account window deps.now then
    ⟨.ok (account, none), account, []⟩
  else
    match deps.parseUrl account.uri with
    | none => ⟨.error {}, account, []⟩
    | some uri =>
      let r := enrichAccountSafely deps (some uri) account apub?
      match r.res with
      | .error e => ⟨.error e, r.accPtr, r.effects⟩
      | .ok (latest, some apub) =>
        ⟨.ok (latest, some apub), r.accPtr,
          r.effects ++ [Effect.enqueueFeatured latest]⟩
      | .ok (latest, none) => ⟨.ok (latest, none), r.accPtr, r.effects⟩

/-- `getAccountByUsernameDomain` from the source: local domains are mapped to
the empty string for the database search; a missing local row is
unretrievable; unseen remote handles get a stub; existing rows are refreshed
via `RefreshAccount`, falling back to the existing row on error. -/
def getAccountByUsernameDomain (deps : Deps) (username domain0 : String) :
    GetRes :=
  let domain :=
    if domain0 = deps.cfg.host ∨ domain0 = deps.cfg.accountDomain then ""
    else domain0
  match deps.dbAccountByUsernameDomain username domain with
  | .error e => ⟨.error e, []⟩
  | .ok none =>
    if domain = "" then
      ⟨.error (Err.setUnretrievable {}), []⟩
    else
      let stub : Account :=
        { id := deps.newULID, domain := domain, username := username }
      let r := enrichAccountSafely deps none stub none
      ⟨r.res, r.effects⟩
  | .ok (some account) =>
    let r := RefreshAccount deps account none none
    match r.res with
    | .error _ => ⟨.ok (r.accPtr, none), r.effects⟩
    | .ok (latest, none) =>
      ⟨.ok (latest, none), r.effects ++ [Effect.populateAccount latest]⟩
    | .ok (latest, some apub) => ⟨.ok (latest, some apub), r.effects⟩

/-- The per-status tail of the featured-collection item loop: skip statuses
that are already pinned, that do not belong to the collection owner, or that
are boosts; otherwise set `PinnedAt = now` and update the row. -/
def pinEffects (deps : Deps) (account : Account) (s : Status) : List Effect :=
  if s.pinnedAt ≠ 0 then []
  else if s.accountURI ≠ account.uri then []
  else if s.boostOfID ≠ "" then []
  else [Effect.updateStatus { s with pinnedAt := deps.now } ["pinned_at"]]

/-- One iteration of the featured-collection item loop: drop items without
an IRI, drop items whose host differs from the collection's host, record the
item URI as observed (even when the status cannot be obtained), and process
the status when one is available. -/
def processFeaturedItem (deps : Deps) (account : Account) (collHost : String)
    (item : Option Url) : Option String × List Effect :=
  match item with
  | none => (none, [])
  | some iri =>
    if iri.host ≠ collHost then
      (none, [])
    else
      let fx :=
        match deps.getStatusByURI iri.toStr with
        | .failed => []
        | .stale s => pinEffects deps account s
        | .found s => pinEffects deps account s
      (some iri.toStr, fx)

/-- The featured-collection item loop over the lazily iterated items,
accumulating observed status URIs (in order) and update effects. -/
def featuredLoop (deps : Deps) (account : Account) (collHost : String) :
    List (Option Url) → List String × List Effect
  | [] => ([], [])
  | item :: rest =>
    let r := processFeaturedItem deps account collHost item
    let rr := featuredLoop deps account collHost rest
    (match r.1 with
      | some u => (u :: rr.1, r.2 ++ rr.2)
      | none => (rr.1, r.2 ++ rr.2))

/-- The unpin loop: every previously pinned status whose URI is not among
the observed item URIs has its `PinnedAt` cleared. -/
def unpinLoop (statusURIs : List String) : List Status → List Effect
  | [] => []
  | s :: rest =>
    (if statusURIs.contains s.uri then []
      else [Effect.updateStatus { s with pinnedAt := 0 } ["pinned_at"]]) ++
    unpinLoop statusURIs rest

/-- `dereferenceAccountFeatured` from the source: parse the featured
collection URI, dereference the collection, load the previously pinned
statuses, run the item loop, then unpin the stale pins. -/
def dereferenceAccountFeatured (deps : Deps) (account : Account) :
    Except Err Unit × List Effect :=
  match deps.parseUrl account.featuredCollectionURI with
  | none => (.error {}, [])
  | some uri =>
    match deps.derefCollection uri.toStr with
    | .error e => (.error e, [])
    | .ok items =>
      match deps.pinnedStatuses account.id with
      | .error e => (.error e, [])
      | .ok wasPinned =>
        let looped := featuredLoop deps account uri.host items
        (.ok (), looped.2 ++ unpinLoop looped.1 wasPinned)

/-- Claim-side definition for the featured-collection claim (following the
specification's words, to be compared with the source translation): the
observed URIs are the item IRIs sharing the collection's host. -/
def specObservedURIs (items : List (Option Url)) (collHost : String) :
    List String :=
  ((items.filterMap id).filter (fun u => u.host = collHost)).map Url.toStr

/-- Claim-side definition: per observed item URI, resolve the status
(tolerating per-item failure), skip already-pinned / foreign / boost
statuses, and pin the rest. -/
def specPinEffects (deps : Deps) (account : Account)
    (observed : List String) : List Effect :=
  observed.flatMap (fun u =>
    match deps.getStatusByURI u with
    | .failed => []
    | .stale s => pinEffects deps account s
    | .found s => pinEffects deps account s)

/-- Claim-side definition: previously pinned statuses not among the observed
URIs get their pinned timestamp cleared. -/
def specUnpinEffects (wasPinned : List Status) (observed : List String) :
    List Effect :=
  (wasPinned.filter (fun s => ¬ observed.contains s.uri)).map
    (fun s => Effect.updateStatus { s with pinnedAt := 0 } ["pinned_at"])

/-! ## Freshness policy (claim C4) -/

/-- A not-yet-persisted remote instance-actor stub: marked new, an instance
account, neither local nor suspended. -/
def instActorStub : Account :=
  { domain := "r.ex", username := "r.ex", uri := "https://r.ex/actor",
    instanceActor := true }

/-- A small concrete configuration reused across concrete scenarios. -/
def cfgA : Config :=
  ⟨"local.ex", "local.ex", 10⟩

/-- C4, counterexample: for an account marked new that is a well-known
system identity (instance actor) and has not yet been persisted — and that
is neither local nor suspended — `accountFresh` returns `false` (its stale
`FetchedAt` makes it due for refresh), not `true` as the claim states: the
source short-circuit applies to instance accounts that are NOT new. -/
theorem accountFresh_new_instance_actor_not_fresh :
    instActorStub.IsInstance = true ∧ instActorStub.IsNew = true ∧
    instActorStub.IsLocal cfgA = false ∧ instActorStub.IsSuspended = false ∧
    accountFresh cfgA instActorStub none 100 = false := by
  refine ⟨rfl, by decide, by decide, by decide, by decide⟩

/-- C4 (amended): for a non-local, non-suspended account, `accountFresh`
returns true exactly when the account is an instance account that is NOT
new (already persisted), or the current time is not past `FetchedAt` plus
the freshness window (the default window being used when none is
supplied). -/
theorem accountFresh_characterization (cfg : Config) (a : Account)
    (w : Option Nat) (now : Nat)
    (hl : a.IsLocal cfg = false) (hs : a.IsSuspended = false) :
    accountFresh cfg a w now = true ↔
      ((a.IsInstance = true ∧ a.IsNew = false) ∨
        now ≤ a.fetchedAt + w.getD cfg.defaultAccountFreshness) := by
  unfold accountFresh
  simp only [hl, hs, Bool.false_eq_true, if_false]
  by_cases hi : a.IsInstance = true ∧ ¬ a.IsNew = true
  · simp only [if_pos hi, true_iff]
    exact Or.inl ⟨hi.1, by simpa using hi.2⟩
  · rw [if_neg hi]
    simp only [decide_eq_true_eq, Nat.not_lt]
    constructor
    · exact fun h => Or.inr h
    · rintro (⟨h1, h2⟩ | h)
      · exact absurd ⟨h1, by simp [h2]⟩ hi
      · exact h

/-- C4 witness: a persisted (non-new) instance account is reported fresh
even with a long-stale `FetchedAt`. -/
theorem accountFresh_characterization_witness :
    ({ instActorStub with createdAt := 3 }.IsLocal cfgA = false ∧
      { instActorStub with createdAt := 3 }.IsSuspended = false) ∧
    (accountFresh cfgA { instActorStub with createdAt := 3 } none 100 = true ↔
      (({ instActorStub with createdAt := 3 }.IsInstance = true ∧
        { instActorStub with createdAt := 3 }.IsNew = false) ∨
        (100 : Nat) ≤ { instActorStub with createdAt := 3 }.fetchedAt +
          (none : Option Nat).getD cfgA.defaultAccountFreshness)) :=
  ⟨⟨by decide, by decide⟩,
    accountFresh_characterization cfgA { instActorStub with createdAt := 3 }
      none 100 (by decide) (by decide)⟩

/-! ## Emoji reconciliation (claim C1) -/

/-- A neutral collaborator environment for concrete scenarios; individual
scenarios override the oracles they exercise. -/
def depsBase : Deps where
  cfg := cfgA
  now := 100
  newULID := "NEW1"
  transportErr := none
  finger := fun _ _ => .error {}
  dbAccountByURI := fun _ => .ok none
  dbAccountByURL := fun _ => .ok none
  dbAccountByUsernameDomain := fun _ _ => .ok none
  isDomainBlocked := fun _ => .ok false
  deref := fun _ => .error { status := 404 }
  resolveAccountable := fun _ => .error {}
  convert := fun _ _ => .error {}
  parseUrl := fun _ => none
  getEmojiByID := fun _ => .error {}
  populateEmojis := fun es => .ok es
  getAttachmentByID := fun _ => .ok none
  loadAttachment := fun _ => .error {}
  putAccount := fun _ => none
  updateAccount := fun _ _ => none
  populateErr := none
  derefCollection := fun _ => .ok []
  pinnedStatuses := fun _ => .ok []
  getStatusByURI := fun _ => .failed
  updateStatusErr := fun _ => none

/-- Previously held emoji: URI `a`, database ID `1`. -/
def emojiOld : Emoji := ⟨"1", "a"⟩

/-- Freshly fetched emoji: the same URI `a`, but database ID `2`. -/
def emojiNew : Emoji := ⟨"2", "a"⟩

/-- Environment in which dereferencing the emojis yields `emojiNew`. -/
def depsEmoji : Deps :=
  { depsBase with populateEmojis := fun _ => .ok [emojiNew] }

/-- Account currently holding `emojiOld`. -/
def accEmoji : Account :=
  { emojis := [emojiOld], emojiIDs := ["1"] }

/-- C1, counterexample: the previous and newly fetched emoji lists have
identical URI lists (`[a]` and `[a]`), so comparison "by URI alone" would
report unchanged, yet `fetchRemoteAccountEmojis` reports changed and
replaces the association wholesale: the second source loop compares got
emojis against previous ones by URI AND ID, and the IDs differ. -/
theorem fetchRemoteAccountEmojis_not_uri_only :
    accEmoji.emojis.map Emoji.uri = [emojiNew].map Emoji.uri ∧
    fetchRemoteAccountEmojis depsEmoji accEmoji =
      .ok (true, { accEmoji with emojis := [emojiNew], emojiIDs := ["2"] }) :=
  ⟨rfl, rfl⟩

/-- The change decision characterised as set-style comparison: not both
empty, and either differing lengths, a previously-held URI absent from the
new set, or a new (URI, ID) pair absent from the old set. -/
theorem emojiChanged_iff (maybe got : List Emoji) :
    emojiChanged maybe got = true ↔
      ¬ (maybe = [] ∧ got = []) ∧
        (maybe.length ≠ got.length ∨
          (∃ me ∈ maybe, ∀ ge ∈ got, me.uri ≠ ge.uri) ∨
          (∃ ge ∈ got, ∀ me ∈ maybe,
            ¬ (ge.uri = me.uri ∧ ge.id = me.id))) := by
  unfold emojiChanged
  split_ifs with h1 h2 h3 h4 <;>
    simp_all [List.any_eq_true, List.length_eq_zero, not_and_or]

/-- C1 (amended): when the account's emoji models are already present (at
least as many models as IDs) and dereferencing them yields `got`, the
reconciliation reports changed exactly when the lists are not both empty
and either the lengths differ, or some previously-held emoji URI is absent
from the new set (URI comparison only), or some new emoji is absent from
the old set comparing by URI and ID together; on change the account's emoji
list and ID list are replaced wholesale by the got values, and otherwise
the account is untouched. -/
theorem fetchRemoteAccountEmojis_characterization (deps : Deps)
    (t : Account) (got : List Emoji)
    (hlen : t.emojiIDs.length ≤ t.emojis.length)
    (hpop : deps.populateEmojis t.emojis = .ok got) :
    fetchRemoteAccountEmojis deps t =
      .ok (emojiChanged t.emojis got,
        if emojiChanged t.emojis got then
          { t with emojis := got, emojiIDs := got.map (fun e => e.id) }
        else t) ∧
    (emojiChanged t.emojis got = true ↔
      ¬ (t.emojis = [] ∧ got = []) ∧
        (t.emojis.length ≠ got.length ∨
          (∃ me ∈ t.emojis, ∀ ge ∈ got, me.uri ≠ ge.uri) ∨
          (∃ ge ∈ got, ∀ me ∈ t.emojis,
            ¬ (ge.uri = me.uri ∧ ge.id = me.id)))) := by
  refine ⟨?_, emojiChanged_iff t.emojis got⟩
  simp only [fetchRemoteAccountEmojis]
  rw [if_neg (Nat.not_lt.mpr hlen)]
  by_cases hc : emojiChanged t.emojis got = true
  · simp [hpop, hc]
  · simp only [Bool.not_eq_true] at hc
    simp [hpop, hc]

/-- The got-emoji list for the C1 witness: URI `b`, ID `9`. -/
def gotEmojiW : List Emoji := [⟨"9", "b"⟩]

/-- Environment for the C1 witness: dereferencing yields `gotEmojiW`. -/
def depsEmojiW : Deps :=
  { depsBase with populateEmojis := fun _ => .ok gotEmojiW }

/-- C1 witness: instantiating the characterization at a URI-disjoint change
`{a} → {b}`: reported changed with wholesale replacement. -/
theorem fetchRemoteAccountEmojis_characterization_witness :
    ((accEmoji.emojiIDs.length ≤ accEmoji.emojis.length) ∧
      depsEmojiW.populateEmojis accEmoji.emojis = .ok gotEmojiW) ∧
    fetchRemoteAccountEmojis depsEmojiW accEmoji =
      .ok (emojiChanged accEmoji.emojis gotEmojiW,
        if emojiChanged accEmoji.emojis gotEmojiW then
          { accEmoji with
              emojis := gotEmojiW,
              emojiIDs := gotEmojiW.map (fun e => e.id) }
        else accEmoji) :=
  ⟨⟨by decide, rfl⟩,
    (fetchRemoteAccountEmojis_characterization depsEmojiW accEmoji gotEmojiW
      (by decide) rfl).1⟩

/-! ## Preservation lemmas for the enrichment pipeline -/

/-- The avatar fetch only ever touches the avatar attachment ID. -/
theorem fetchRemoteAccountAvatar_only_avatar (deps : Deps)
    (e l : Account) :
    ∃ aid, (fetchRemoteAccountAvatar deps e l).1 =
      { l with avatarMediaAttachmentID := aid } := by
  simp only [fetchRemoteAccountAvatar]
  repeat' split
  all_goals exact ⟨_, rfl⟩

/-- The header fetch only ever touches the header attachment ID. -/
theorem fetchRemoteAccountHeader_only_header (deps : Deps)
    (e l : Account) :
    ∃ hid, (fetchRemoteAccountHeader deps e l).1 =
      { l with headerMediaAttachmentID := hid } := by
  simp only [fetchRemoteAccountHeader]
  repeat' split
  all_goals exact ⟨_, rfl⟩

/-- The emoji fetch only ever touches the emoji lists. -/
theorem fetchRemoteAccountEmojis_only_emojis (deps : Deps)
    (t : Account) (c : Bool) (t2 : Account)
    (h : fetchRemoteAccountEmojis deps t = .ok (c, t2)) :
    ∃ es ids, t2 = { t with emojis := es, emojiIDs := ids } := by
  simp only [fetchRemoteAccountEmojis] at h
  repeat' split at h
  all_goals simp_all
  all_goals first
    | exact ⟨_, _, h.2.symm⟩
    | exact ⟨t2.emojis, t2.emojiIDs, rfl⟩

/-- The avatar fetch preserves `FetchedAt`. -/
theorem fetchRemoteAccountAvatar_fetchedAt (deps : Deps) (e l : Account) :
    (fetchRemoteAccountAvatar deps e l).1.fetchedAt = l.fetchedAt := by
  obtain ⟨aid, ha⟩ := fetchRemoteAccountAvatar_only_avatar deps e l
  rw [ha]

/-- The header fetch preserves `FetchedAt`. -/
theorem fetchRemoteAccountHeader_fetchedAt (deps : Deps) (e l : Account) :
    (fetchRemoteAccountHeader deps e l).1.fetchedAt = l.fetchedAt := by
  obtain ⟨hid, hh⟩ := fetchRemoteAccountHeader_only_header deps e l
  rw [hh]

/-- On success, the store step preserves the enriched account's `FetchedAt`
and returns the wire object it was given. -/
theorem enrichStore_ok (deps : Deps) (acc l4 : Account) (apub : ApubAcc)
    (l : Account) (w : ApubAcc)
    (h : (enrichStore deps acc l4 apub).1 = .ok (l, w)) :
    l.fetchedAt = l4.fetchedAt ∧ w = apub ∧
      l.avatarMediaAttachmentID = l4.avatarMediaAttachmentID := by
  simp only [enrichStore] at h
  repeat' split at h
  all_goals simp_all
  all_goals obtain ⟨h1, h2⟩ := h
  all_goals subst h2
  all_goals simp [h1.symm]

/-- On success, the persistence stage stamps `FetchedAt = now` on the
returned account and returns the wire object it was given. -/
theorem enrichPersist_ok (deps : Deps) (acc l0 : Account) (apub : ApubAcc)
    (l : Account) (w : ApubAcc)
    (h : (enrichPersist deps acc l0 apub).1 = .ok (l, w)) :
    l.fetchedAt = deps.now ∧ w = apub := by
  simp only [enrichPersist] at h
  rcases he : fetchRemoteAccountEmojis deps
      (fetchRemoteAccountHeader deps acc
        (fetchRemoteAccountAvatar deps acc
          { l0 with id := acc.id, fetchedAt := deps.now }).1).1 with e0 | r
  · simp only [he] at h
    obtain ⟨h1, h2, -⟩ := enrichStore_ok _ _ _ _ _ _ h
    rw [h1, fetchRemoteAccountHeader_fetchedAt,
      fetchRemoteAccountAvatar_fetchedAt]
    exact ⟨rfl, h2⟩
  · simp only [he] at h
    obtain ⟨h1, h2, -⟩ := enrichStore_ok _ _ _ _ _ _ h
    obtain ⟨es, ids, hr⟩ :=
      fetchRemoteAccountEmojis_only_emojis deps _ r.1 r.2 (by rw [he])
    rw [h1, hr]
    refine ⟨?_, h2⟩
    show (fetchRemoteAccountHeader deps acc _).1.fetchedAt = deps.now
    rw [fetchRemoteAccountHeader_fetchedAt, fetchRemoteAccountAvatar_fetchedAt]

/-- On success, `enrichAccount` returns an account stamped with
`FetchedAt = now`. -/
theorem enrichAccount_ok_fetchedAt (deps : Deps) (uri? : Option Url)
    (acc : Account) (apub? : Option ApubAcc) (l : Account) (w : ApubAcc)
    (h : (enrichAccount deps uri? acc apub?).res = .ok (l, w)) :
    l.fetchedAt = deps.now := by
  simp only [enrichAccount] at h
  rcases h1 : enrichPrepare deps uri? acc with ⟨r1, ptr, fx1⟩
  rcases r1 with e | ⟨acc1, uri1⟩
  · simp [h1] at h
  · simp only [h1] at h
    rcases h2 : enrichFetch deps acc1 uri1 apub? with ⟨r2, fx2⟩
    rcases r2 with e | ⟨acc2, uri2, apub⟩
    · simp [h2] at h
    · simp only [h2] at h
      rcases h3 : enrichConvert deps acc2 uri2 apub with ⟨r3, fx3⟩
      rcases r3 with e | latest
      · simp [h3] at h
      · simp only [h3] at h
        rcases h4 : enrichCheckLatest latest uri2.toStr with - | e
        · simp only [h4] at h
          rcases h5 : enrichPersist deps acc2 latest apub with ⟨r5, fx5⟩
          rcases r5 with e | r
          · simp [h5] at h
          · simp only [h5] at h
            injection h with h6
            exact (enrichPersist_ok deps acc2 latest apub l w
              (by rw [h5]; exact congrArg Except.ok h6)).1
        · simp [h4] at h

/-- The webfinger block preserves `FetchedAt` on the struct behind the
caller's pointer. -/
theorem enrichWebfinger_ptr_fetchedAt (deps : Deps) (uri? : Option Url)
    (a : Account) (wk : Account) (u : Option Url) (p : Account)
    (fx : List Effect)
    (h : enrichWebfinger deps uri? a = (.ok (wk, u, p), fx)) :
    p.fetchedAt = a.fetchedAt := by
  by_cases hu : a.username = ""
  · simp only [enrichWebfinger, if_pos hu, Prod.mk.injEq,
      Except.ok.injEq] at h
    obtain ⟨⟨-, -, hp⟩, -⟩ := h
    rw [← hp]
  · rcases hf : deps.finger a.username a.domain with e | ⟨accDomain, accURI⟩
    · by_cases hau : a.uri = ""
      · simp [enrichWebfinger, if_neg hu, hf, hau] at h
      · simp only [enrichWebfinger, if_neg hu, hf, if_neg hau,
          Prod.mk.injEq, Except.ok.injEq] at h
        obtain ⟨⟨-, -, hp⟩, -⟩ := h
        rw [← hp]
    · by_cases hd : a.domain ≠ accDomain
      · rcases hdb : deps.dbAccountByUsernameDomain a.username accDomain
            with e | al
        · simp [enrichWebfinger, if_neg hu, hf, if_pos hd, hdb] at h
        · rcases al with - | alreadyAcc
          · simp only [enrichWebfinger, if_neg hu, hf, if_pos hd, hdb,
              Prod.mk.injEq, Except.ok.injEq] at h
            obtain ⟨⟨-, -, hp⟩, -⟩ := h
            rw [← hp]
          · simp only [enrichWebfinger, if_neg hu, hf, if_pos hd, hdb,
              Prod.mk.injEq, Except.ok.injEq] at h
            obtain ⟨⟨-, -, hp⟩, -⟩ := h
            rw [← hp]
      · simp only [enrichWebfinger, if_neg hu, hf, if_neg hd,
          Prod.mk.injEq, Except.ok.injEq] at h
        obtain ⟨⟨-, -, hp⟩, -⟩ := h
        rw [← hp]

/-- The prepare stage preserves `FetchedAt` on the struct behind the
caller's pointer. -/
theorem enrichPrepare_ptr_fetchedAt (deps : Deps) (uri? : Option Url)
    (a : Account) :
    (enrichPrepare deps uri? a).2.1.fetchedAt = a.fetchedAt := by
  rcases ht : deps.transportErr with - | e
  · rcases hw : enrichWebfinger deps uri? a with ⟨r, fx⟩
    rcases r with e | ⟨acc1, uriOpt, ptr⟩
    · simp [enrichPrepare, ht, hw]
    · have hfp := enrichWebfinger_ptr_fetchedAt deps uri? a _ _ _ _ hw
      rcases hr : resolveUri deps acc1 uriOpt with e | uri
      · simp [enrichPrepare, ht, hw, hr, hfp]
      · rcases hb : deps.isDomainBlocked uri.host with e | b
        · simp [enrichPrepare, ht, hw, hr, hb, hfp]
        · cases b <;> simp [enrichPrepare, ht, hw, hr, hb, hfp]
  · simp [enrichPrepare, ht]

/-- `enrichAccount` hands back exactly the pointer state computed by the
prepare stage. -/
theorem enrichAccount_ptr (deps : Deps) (uri? : Option Url) (a : Account)
    (apub? : Option ApubAcc) :
    (enrichAccount deps uri? a apub?).accPtr =
      (enrichPrepare deps uri? a).2.1 := by
  simp only [enrichAccount]
  repeat' split
  all_goals simp_all

/-! ## FetchedAt monotonicity (claim C2) -/

/-- `FetchedAt` of the accounts handed back by `enrichAccountSafely` never
drops below the input account's value, assuming the clock has not gone
backwards and data-store rows are at least as fresh as the input. -/
theorem enrichAccountSafely_fetchedAt (deps : Deps) (uri? : Option Url)
    (acc : Account) (apub? : Option ApubAcc)
    (hnow : acc.fetchedAt ≤ deps.now)
    (hdb : ∀ s a2, deps.dbAccountByURI s = .ok (some a2) →
      acc.fetchedAt ≤ a2.fetchedAt) :
    (∀ l w?, (enrichAccountSafely deps uri? acc apub?).res = .ok (l, w?) →
      acc.fetchedAt ≤ l.fetchedAt) ∧
    acc.fetchedAt ≤
      (enrichAccountSafely deps uri? acc apub?).accPtr.fetchedAt := by
  have haptr : (enrichAccount deps uri? acc apub?).accPtr.fetchedAt =
      acc.fetchedAt := by
    rw [enrichAccount_ptr]
    exact enrichPrepare_ptr_fetchedAt deps uri? acc
  by_cases hs : acc.IsSuspended = true
  · simp only [enrichAccountSafely, if_pos hs]
    refine ⟨?_, le_refl _⟩
    intro l w? hok
    injection hok with h6
    injection h6 with h7 h8
    rw [← h7]
  · rcases hr : (enrichAccount deps uri? acc apub?).res
        with e | ⟨latest, apub⟩
    · by_cases h400 : 400 ≤ e.status ∧ acc.IsNew = true
      · simp only [enrichAccountSafely, if_neg hs, hr, if_pos h400]
        refine ⟨?_, le_of_eq haptr.symm⟩
        intro l w? hok
        simp at hok
      · simp only [enrichAccountSafely, if_neg hs, hr, if_neg h400]
        by_cases hsc : 400 ≤ e.status
        · simp only [if_pos hsc]
          by_cases hae : e.alreadyExists = true
          · simp only [if_pos hae]
            rcases hdbq : deps.dbAccountByURI
                { (enrichAccount deps uri? acc apub?).accPtr with
                    fetchedAt := deps.now }.uri with e2 | w2
            · simp only [hdbq]
              exact ⟨fun l w? hok => by simp at hok, by simp [hnow]⟩
            · rcases w2 with - | winner
              · simp only [hdbq]
                exact ⟨fun l w? hok => by simp at hok, by simp [hnow]⟩
              · simp only [hdbq]
                refine ⟨?_, by simp [hnow]⟩
                intro l w? hok
                injection hok with h6
                injection h6 with h7 h8
                rw [← h7]
                exact hdb _ winner hdbq
          · simp only [if_neg hae]
            exact ⟨fun l w? hok => by simp at hok, by simp [hnow]⟩
        · simp only [if_neg hsc]
          by_cases hae : e.alreadyExists = true
          · simp only [if_pos hae]
            rcases hdbq : deps.dbAccountByURI
                (enrichAccount deps uri? acc apub?).accPtr.uri with e2 | w2
            · simp only [hdbq]
              exact ⟨fun l w? hok => by simp at hok, le_of_eq haptr.symm⟩
            · rcases w2 with - | winner
              · simp only [hdbq]
                exact ⟨fun l w? hok => by simp at hok, le_of_eq haptr.symm⟩
              · simp only [hdbq]
                refine ⟨?_, le_of_eq haptr.symm⟩
                intro l w? hok
                injection hok with h6
                injection h6 with h7 h8
                rw [← h7]
                exact hdb _ winner hdbq
          · simp only [if_neg hae]
            exact ⟨fun l w? hok => by simp at hok, le_of_eq haptr.symm⟩
    · have hstamp := enrichAccount_ok_fetchedAt deps uri? acc apub?
        latest apub hr
      simp only [enrichAccountSafely, if_neg hs, hr]
      refine ⟨?_, le_of_eq haptr.symm⟩
      intro l w? hok
      injection hok with h6
      injection h6 with h7 h8
      rw [← h7, hstamp]
      exact hnow

/-- C2 (amended): `FetchedAt` is monotonically non-decreasing across any
`RefreshAccount` call — the account returned on success, and the caller's
account struct in every outcome, carry a `FetchedAt` at least the value
before the call (assuming the clock has not gone backwards and stored rows
are at least as fresh as the input).  `FetchedAt` is stamped to now on
every successful enrichment, and on failed attempts only when the error
carries an HTTP status ≥ 400 and the account already existed; other
failures leave it unchanged. -/
theorem refreshAccount_fetchedAt_monotone (deps : Deps) (acc : Account)
    (apub? : Option ApubAcc) (window : Option Nat)
    (hnow : acc.fetchedAt ≤ deps.now)
    (hdb : ∀ s a2, deps.dbAccountByURI s = .ok (some a2) →
      acc.fetchedAt ≤ a2.fetchedAt) :
    (∀ l w?, (RefreshAccount deps acc apub? window).res = .ok (l, w?) →
      acc.fetchedAt ≤ l.fetchedAt) ∧
    acc.fetchedAt ≤
      (RefreshAccount deps acc apub? window).accPtr.fetchedAt := by
  by_cases hf : apub?.isNone = true ∧
      accountFresh deps.cfg acc window deps.now = true
  · simp only [RefreshAccount, if_pos hf]
    refine ⟨?_, le_refl _⟩
    intro l w? hok
    injection hok with h6
    injection h6 with h7 h8
    rw [← h7]
  · simp only [RefreshAccount, if_neg hf]
    rcases hp : deps.parseUrl acc.uri with - | uri
    · simp only [hp]
      exact ⟨fun l w? hok => by simp at hok, le_refl _⟩
    · simp only [hp]
      obtain ⟨hres, hptr⟩ :=
        enrichAccountSafely_fetchedAt deps (some uri) acc apub? hnow hdb
      rcases hq : (enrichAccountSafely deps (some uri) acc apub?).res
          with e | ⟨latest, w2⟩
      · simp only [hq]
        exact ⟨fun l w? hok => by simp at hok, hptr⟩
      · rcases w2 with - | apub
        · simp only [hq]
          refine ⟨?_, hptr⟩
          intro l w? hok
          injection hok with h6
          injection h6 with h7 h8
          rw [← h7]
          exact hres latest none hq
        · simp only [hq]
          refine ⟨?_, hptr⟩
          intro l w? hok
          injection hok with h6
          injection h6 with h7 h8
          rw [← h7]
          exact hres latest (some apub) hq

/-- A stored (non-new) remote account, last fetched at time 5. -/
def accAlice : Account :=
  { id := "A1", uri := "https://r.ex/u/alice", url := "https://r.ex/@alice",
    domain := "r.ex", username := "alice", fetchedAt := 5, createdAt := 3 }

/-- The parsed URI of `accAlice`. -/
def uriAlice : Url := ⟨"https", "r.ex", "/u/alice"⟩

/-- Environment where the remote host cannot be reached: webfinger fails and
the dereference fails with a plain network error (no HTTP status). -/
def depsNetFail : Deps :=
  { depsBase with
      parseUrl := fun s =>
        if s = "https://r.ex/u/alice" then some uriAlice else none,
      deref := fun _ => .error {} }

/-- C2, counterexample: a refresh of an existing stale account performs a
real dereference attempt (the transport deref call is made) which fails
with an error carrying no HTTP status; `FetchedAt` is NOT updated to the
current time — the caller's struct still carries the old value 5 while now
is 100, and no `fetched_at` data-store update is issued.  The stamp happens
only for failures whose error carries an HTTP status ≥ 400. -/
theorem refresh_failed_attempt_without_stamp :
    (RefreshAccount depsNetFail accAlice none none).effects =
      [Effect.finger ("alice") ("r.ex"), Effect.deref (Url.toStr uriAlice)] ∧
    (RefreshAccount depsNetFail accAlice none none).accPtr.fetchedAt = 5 ∧
    depsNetFail.now = 100 ∧
    (RefreshAccount depsNetFail accAlice none none).res =
      .error { unretrievable := true } :=
  ⟨rfl, rfl, rfl, rfl⟩

/-- C2 witness: the monotonicity theorem applied to the concrete failing
refresh above. -/
theorem refreshAccount_fetchedAt_monotone_witness :
    (accAlice.fetchedAt ≤ depsNetFail.now ∧
      (∀ s a2, depsNetFail.dbAccountByURI s = .ok (some a2) →
        accAlice.fetchedAt ≤ a2.fetchedAt)) ∧
    ((∀ l w?, (RefreshAccount depsNetFail accAlice none none).res =
        .ok (l, w?) → accAlice.fetchedAt ≤ l.fetchedAt) ∧
      accAlice.fetchedAt ≤
        (RefreshAccount depsNetFail accAlice none none).accPtr.fetchedAt) :=
  ⟨⟨by decide, fun s a2 h => by simp [depsNetFail, depsBase] at h⟩,
    refreshAccount_fetchedAt_monotone depsNetFail accAlice none none
      (by decide) (fun s a2 h => by simp [depsNetFail, depsBase] at h)⟩

/-! ## Soft fallback versus propagation (claim C3) -/

/-- Environment where the dereference fails with an HTTP 404. -/
def deps404 : Deps :=
  { depsBase with
      parseUrl := fun s =>
        if s = "https://r.ex/u/alice" then some uriAlice else none }

/-- C3, counterexample: for an account that already existed in the store
(not new), a fetch error during enrichment IS propagated as a hard failure
by the public entry point `RefreshAccount` — it returns the error rather
than the previous cached entity, refuting the claim that every public entry
point softens such errors. -/
theorem refreshAccount_propagates_fetch_error :
    accAlice.IsNew = false ∧
    (RefreshAccount deps404 accAlice none none).res =
      .error { status := 404, unretrievable := true } :=
  ⟨by decide, rfl⟩

/-- C3 (amended): for an account that already existed in the store, a
failed enrichment is softened by the lookup entry points — `getAccountByURI`
and `getAccountByUsernameDomain` log the error and return the previously
stored entity (as left by the enrichment attempt, which stamps
`FetchedAt = now` exactly for HTTP-status ≥ 400 errors) with a nil wire
object and no error; for a brand-new stub the error is propagated; but
`RefreshAccount` propagates the error for existing accounts as well. -/
theorem enrichment_error_handling_by_entry_point :
    (∀ deps uri acc e,
      deps.dbAccountByURI uri.toStr = .ok (some acc) →
      accountFresh deps.cfg acc none deps.now = false →
      (enrichAccountSafely deps (some uri) acc none).res = .error e →
      (getAccountByURI deps uri).res =
        .ok ((enrichAccountSafely deps (some uri) acc none).accPtr, none)) ∧
    (∀ deps username domain acc e,
      (domain = deps.cfg.host ∨ domain = deps.cfg.accountDomain) = False →
      deps.dbAccountByUsernameDomain username domain = .ok (some acc) →
      (RefreshAccount deps acc none none).res = .error e →
      (getAccountByUsernameDomain deps username domain).res =
        .ok ((RefreshAccount deps acc none none).accPtr, none)) ∧
    (∀ deps uri e,
      deps.dbAccountByURI uri.toStr = .ok none →
      deps.dbAccountByURL uri.toStr = .ok none →
      (uri.host = deps.cfg.host ∨ uri.host = deps.cfg.accountDomain) =
        False →
      (enrichAccountSafely deps (some uri)
          { id := deps.newULID, domain := uri.host, uri := uri.toStr }
          none).res = .error e →
      (getAccountByURI deps uri).res = .error e) ∧
    (∀ deps acc apub? window uri e,
      (apub?.isNone = true ∧
        accountFresh deps.cfg acc window deps.now = true) = False →
      deps.parseUrl acc.uri = some uri →
      (enrichAccountSafely deps (some uri) acc apub?).res = .error e →
      (RefreshAccount deps acc apub? window).res = .error e) := by
  refine ⟨?_, ?_, ?_, ?_⟩
  · intro deps uri acc e h1 hfresh hsafe
    simp only [getAccountByURI, h1, hfresh, Bool.false_eq_true, if_false]
    rcases hq : (enrichAccountSafely deps (some uri) acc none).res
        with e2 | r
    · simp only [hq]
    · rw [hq] at hsafe
      cases hsafe
  · intro deps username domain acc e hda h1 href
    simp only [eq_iff_iff, iff_false] at hda
    simp only [getAccountByUsernameDomain, if_neg hda, h1]
    rcases hq : (RefreshAccount deps acc none none).res with e2 | r
    · simp only [hq]
    · rw [hq] at href
      cases href
  · intro deps uri e h1 h2 hhost hsafe
    simp only [eq_iff_iff, iff_false] at hhost
    simp only [getAccountByURI, h1, h2, if_neg hhost]
    exact hsafe
  · intro deps acc apub? window uri e hfresh hp hsafe
    simp only [eq_iff_iff, iff_false] at hfresh
    simp only [RefreshAccount, if_neg hfresh, hp, hsafe]

/-- Environment for the C3 witness: the account is present in the store by
URI, and the remote dereference fails with a 404. -/
def depsByURI404 : Deps :=
  { deps404 with
      dbAccountByURI := fun s =>
        if s = "https://r.ex/u/alice" then .ok (some accAlice)
        else .ok none }

/-- C3 witness: the `getAccountByURI` soft-fallback conjunct applied to the
concrete 404 scenario on a stored stale account. -/
theorem enrichment_error_handling_witness :
    (depsByURI404.dbAccountByURI uriAlice.toStr = .ok (some accAlice) ∧
      accountFresh depsByURI404.cfg accAlice none depsByURI404.now = false ∧
      (enrichAccountSafely depsByURI404 (some uriAlice) accAlice none).res =
        .error { status := 404, unretrievable := true }) ∧
    (getAccountByURI depsByURI404 uriAlice).res =
      .ok ((enrichAccountSafely depsByURI404
        (some uriAlice) accAlice none).accPtr, none) :=
  ⟨⟨rfl, by decide, rfl⟩,
    enrichment_error_handling_by_entry_point.1 depsByURI404 uriAlice accAlice
      { status := 404, unretrievable := true } rfl (by decide) rfl⟩

/-! ## AlreadyExists conflict handling (claim C5) -/

/-- C5: when enrichment fails with a `db.ErrAlreadyExists` conflict (a
database error, hence carrying no HTTP status ≥ 400), `enrichAccountSafely`
returns the row found by a fresh data-store lookup by the account's URI —
the concurrent winner's row — with a nil wire object and no error
surfaced. -/
theorem enrichSafely_alreadyExists_reread (deps : Deps) (uri? : Option Url)
    (acc : Account) (apub? : Option ApubAcc) (e : Err) (w : Account)
    (hsusp : acc.IsSuspended = false)
    (h400 : e.status < 400)
    (henr : (enrichAccount deps uri? acc apub?).res = .error e)
    (hae : e.alreadyExists = true)
    (hre : deps.dbAccountByURI
      (enrichAccount deps uri? acc apub?).accPtr.uri = .ok (some w)) :
    (enrichAccountSafely deps uri? acc apub?).res = .ok (w, none) := by
  have hs2 : ¬ (acc.IsSuspended = true) := by simp [hsusp]
  have hnot : ¬ (400 ≤ e.status ∧ acc.IsNew = true) := by
    intro hcon
    omega
  have hsc : ¬ (400 ≤ e.status) := by omega
  simp only [enrichAccountSafely, if_neg hs2, henr, if_neg hnot,
    if_neg hsc, if_pos hae, hre]

/-- The target URI of the conflict scenario. -/
def uriBob : Url := ⟨"https", "r.ex", "/u/bob"⟩

/-- The stub constructed for the conflict scenario (new, username unset). -/
def stubBob : Account :=
  { id := "B1", domain := "r.ex", uri := "https://r.ex/u/bob" }

/-- The concurrent winner's row stored under the same URI. -/
def accBobWinner : Account :=
  { id := "B0", uri := "https://r.ex/u/bob", domain := "r.ex",
    username := "bob", fetchedAt := 50, createdAt := 40 }

/-- Wire object naming the canonical id of the conflict scenario. -/
def apubBob : ApubAcc := { idUrl := some uriBob }

/-- Converter output for the conflict scenario. -/
def latestBob : Account :=
  { username := "bob", uri := "https://r.ex/u/bob", domain := "r.ex" }

/-- Environment in which the dereference succeeds but the insert loses an
AlreadyExists race, and the re-read by URI finds the winner's row. -/
def depsConflict : Deps :=
  { depsBase with
      deref := fun s =>
        if s = "https://r.ex/u/bob" then .ok ⟨uriBob, "body"⟩
        else .error { status := 404 },
      resolveAccountable := fun _ => .ok apubBob,
      convert := fun _ _ => .ok latestBob,
      finger := fun u _ =>
        if u = "bob" then .ok ("r.ex", uriBob) else .error {},
      putAccount := fun _ => some .alreadyExists,
      dbAccountByURI := fun s =>
        if s = "https://r.ex/u/bob" then .ok (some accBobWinner)
        else .ok none }

/-- C5 witness: the conflict theorem applied to the concrete lost-race
scenario — the caller receives the winner's row and no wire object. -/
theorem enrichSafely_alreadyExists_reread_witness :
    (stubBob.IsSuspended = false ∧
      (enrichAccount depsConflict (some uriBob) stubBob none).res =
        .error { alreadyExists := true } ∧
      depsConflict.dbAccountByURI
          (enrichAccount depsConflict (some uriBob) stubBob none).accPtr.uri =
        .ok (some accBobWinner)) ∧
    (enrichAccountSafely depsConflict (some uriBob) stubBob none).res =
      .ok (accBobWinner, none) :=
  ⟨⟨by decide, rfl, rfl⟩,
    enrichSafely_alreadyExists_reread depsConflict (some uriBob) stubBob none
      { alreadyExists := true } accBobWinner (by decide) (by decide) rfl rfl
      rfl⟩

/-! ## Domain / URI validation before persistence (claim C6) -/

/-- The webfinger block performs no data-store account writes. -/
theorem enrichWebfinger_no_writes (deps : Deps) (uri? : Option Url)
    (a : Account) :
    ∀ fe ∈ (enrichWebfinger deps uri? a).2, fe.isAccountWrite = false := by
  simp only [enrichWebfinger]
  repeat' split
  all_goals simp [Effect.isAccountWrite]

/-- The prepare stage performs no data-store account writes. -/
theorem enrichPrepare_no_writes (deps : Deps) (uri? : Option Url)
    (a : Account) :
    ∀ fe ∈ (enrichPrepare deps uri? a).2.2, fe.isAccountWrite = false := by
  rcases ht : deps.transportErr with - | e
  · rcases hw : enrichWebfinger deps uri? a with ⟨r, fx⟩
    have hfx : ∀ fe ∈ fx, fe.isAccountWrite = false := by
      have hh := enrichWebfinger_no_writes deps uri? a
      rw [hw] at hh
      exact hh
    rcases r with e | ⟨acc1, uriOpt, ptr⟩
    · simp only [enrichPrepare, ht, hw]
      exact hfx
    · rcases hr : resolveUri deps acc1 uriOpt with e | uri
      · simp only [enrichPrepare, ht, hw, hr]
        exact hfx
      · rcases hb : deps.isDomainBlocked uri.host with e | b
        · simp only [enrichPrepare, ht, hw, hr, hb]
          exact hfx
        · cases b <;> simp only [enrichPrepare, ht, hw, hr, hb] <;>
            exact hfx
  · simp [enrichPrepare, ht]

/-- The fetch stage performs no data-store account writes. -/
theorem enrichFetch_no_writes (deps : Deps) (a : Account) (uri : Url)
    (apub? : Option ApubAcc) :
    ∀ fe ∈ (enrichFetch deps a uri apub?).2, fe.isAccountWrite = false := by
  simp only [enrichFetch]
  repeat' split
  all_goals simp [Effect.isAccountWrite]

/-- The conversion stage performs no data-store account writes. -/
theorem enrichConvert_no_writes (deps : Deps) (a : Account) (uri : Url)
    (apub : ApubAcc) :
    ∀ fe ∈ (enrichConvert deps a uri apub).2, fe.isAccountWrite = false := by
  simp only [enrichConvert]
  repeat' split
  all_goals simp [Effect.isAccountWrite]

/-- C6: if, after conversion and domain derivation, the latest account has
an empty authoritative domain, or neither its URI nor its URL equals the
URI the representation was actually fetched from (after redirects), then
`enrichAccount` fails and performs no data-store `Put` or `Update`. -/
theorem enrichAccount_rejects_invalid_latest (deps : Deps)
    (uri? : Option Url) (acc : Account) (apub? : Option ApubAcc)
    (acc1 : Account) (uri1 : Url) (ptr : Account) (fx1 : List Effect)
    (acc2 : Account) (uri2 : Url) (apub : ApubAcc) (fx2 : List Effect)
    (latest : Account) (fx3 : List Effect)
    (h1 : enrichPrepare deps uri? acc = (.ok (acc1, uri1), ptr, fx1))
    (h2 : enrichFetch deps acc1 uri1 apub? = (.ok (acc2, uri2, apub), fx2))
    (h3 : enrichConvert deps acc2 uri2 apub = (.ok latest, fx3))
    (hbad : latest.domain = "" ∨
      (latest.uri ≠ uri2.toStr ∧ latest.url ≠ uri2.toStr)) :
    (∃ e, (enrichAccount deps uri? acc apub?).res = .error e) ∧
    ∀ fe ∈ (enrichAccount deps uri? acc apub?).effects,
      fe.isAccountWrite = false := by
  have hchk : enrichCheckLatest latest uri2.toStr = some {} := by
    unfold enrichCheckLatest
    by_cases hd : latest.domain = ""
    · rw [if_pos hd]
    · rcases hbad with hbd | hmm
      · exact absurd hbd hd
      · rw [if_neg hd, if_pos hmm]
  simp only [enrichAccount, h1, h2, h3, hchk]
  refine ⟨⟨{}, rfl⟩, ?_⟩
  intro fe hfe
  simp only [EnrichRes.effects, List.mem_append] at hfe
  rcases hfe with (hfe | hfe) | hfe
  · have hh := enrichPrepare_no_writes deps uri? acc
    rw [h1] at hh
    exact hh fe hfe
  · have hh := enrichFetch_no_writes deps acc1 uri1 apub?
    rw [h2] at hh
    exact hh fe hfe
  · have hh := enrichConvert_no_writes deps acc2 uri2 apub
    rw [h3] at hh
    exact hh fe hfe

/-- Environment in which the converter yields an account with an empty
authoritative domain (it would otherwise be stored as a local user). -/
def depsEmptyDomain : Deps :=
  { depsBase with
      deref := fun s =>
        if s = "https://r.ex/u/alice" then .ok ⟨uriAlice, "b"⟩
        else .error { status := 404 },
      resolveAccountable := fun _ => .ok {},
      convert := fun _ _ => .ok
        { username := "alice", uri := "https://r.ex/u/alice",
          domain := "" } }

/-- C6 witness: the validation theorem applied to the concrete
empty-domain conversion — enrichment errors and no Put/Update occurs. -/
theorem enrichAccount_rejects_invalid_latest_witness :
    (enrichPrepare depsEmptyDomain (some uriAlice) accAlice =
        (.ok (accAlice, uriAlice), accAlice,
          [Effect.finger ("alice") ("r.ex")]) ∧
      ({ username := "alice", uri := "https://r.ex/u/alice",
          domain := "" } : Account).domain = "") ∧
    ((∃ e, (enrichAccount depsEmptyDomain (some uriAlice) accAlice
        none).res = .error e) ∧
      ∀ fe ∈ (enrichAccount depsEmptyDomain (some uriAlice) accAlice
        none).effects, fe.isAccountWrite = false) :=
  ⟨⟨rfl, rfl⟩,
    enrichAccount_rejects_invalid_latest depsEmptyDomain (some uriAlice)
      accAlice none accAlice uriAlice accAlice
      [Effect.finger ("alice") ("r.ex")] accAlice uriAlice {}
      [Effect.deref (Url.toStr uriAlice)]
      { username := "alice", uri := "https://r.ex/u/alice", domain := "" }
      [] rfl rfl rfl (Or.inl rfl)⟩

/-! ## Local short-circuit (claim C7) -/

/-- Local accounts are always fresh. -/
theorem accountFresh_of_local (cfg : Config) (a : Account)
    (w : Option Nat) (now : Nat) (hl : a.IsLocal cfg = true) :
    accountFresh cfg a w now = true := by
  simp only [accountFresh, hl]
  simp

/-- C7: for a URI whose host is the configured local host or account
domain, and a data store in which any row found under that URI is local
(its domain empty or equal to the URI host — as guaranteed by how rows are
created), `getAccountByURI` never calls the Transport collaborator: a found
row is returned always-fresh with a nil wire object, and when no row exists
the call fails as Unretrievable instead of building a stub for remote
dereference. -/
theorem getAccountByURI_local_short_circuit (deps : Deps) (uri : Url)
    (hhost : uri.host = deps.cfg.host ∨ uri.host = deps.cfg.accountDomain)
    (hrowURI : ∀ a, deps.dbAccountByURI uri.toStr = .ok (some a) →
      a.domain = "" ∨ a.domain = uri.host)
    (hrowURL : ∀ a, deps.dbAccountByURL uri.toStr = .ok (some a) →
      a.domain = "" ∨ a.domain = uri.host) :
    (∀ fe ∈ (getAccountByURI deps uri).effects, fe.isTransport = false) ∧
    (∀ a, deps.dbAccountByURI uri.toStr = .ok (some a) →
      (getAccountByURI deps uri).res = .ok (a, none)) ∧
    (deps.dbAccountByURI uri.toStr = .ok none →
      deps.dbAccountByURL uri.toStr = .ok none →
      (getAccountByURI deps uri).res = .error (Err.setUnretrievable {})) := by
  have hlocal : ∀ a : Account, a.domain = "" ∨ a.domain = uri.host →
      a.IsLocal deps.cfg = true := by
    intro a ha
    simp only [Account.IsLocal, decide_eq_true_eq]
    rcases ha with ha | ha
    · exact Or.inl ha
    · rcases hhost with hh | hh
      · exact Or.inr (Or.inl (ha.trans hh))
      · exact Or.inr (Or.inr (ha.trans hh))
  rcases hq1 : deps.dbAccountByURI uri.toStr with e | first
  · have hv : getAccountByURI deps uri = ⟨.error e, []⟩ := by
      simp [getAccountByURI, hq1]
    rw [hv]
    refine ⟨by simp, ?_, ?_⟩
    · intro a ha
      cases ha
    · intro h1 h2
      cases h1
  · rcases first with - | a0
    · rcases hq2 : deps.dbAccountByURL uri.toStr with e | second
      · have hv : getAccountByURI deps uri = ⟨.error e, []⟩ := by
          simp [getAccountByURI, hq1, hq2]
        rw [hv]
        refine ⟨by simp, ?_, ?_⟩
        · intro a ha
          simp at ha
        · intro h1 h2
          cases h2
      · rcases second with - | a0
        · have hv : getAccountByURI deps uri =
              ⟨.error (Err.setUnretrievable {}), []⟩ := by
            simp [getAccountByURI, hq1, hq2, hhost]
          rw [hv]
          refine ⟨by simp, ?_, fun _ _ => rfl⟩
          intro a ha
          simp at ha
        · have hfr := accountFresh_of_local deps.cfg a0 none deps.now
            (hlocal a0 (hrowURL a0 hq2))
          have hv : getAccountByURI deps uri =
              ⟨.ok (a0, none), [Effect.populateAccount a0]⟩ := by
            simp [getAccountByURI, hq1, hq2, hfr]
          rw [hv]
          refine ⟨?_, ?_, ?_⟩
          · intro fe hfe
            simp only [List.mem_singleton] at hfe
            rw [hfe]
            rfl
          · intro a ha
            simp at ha
          · intro h1 h2
            simp at h2
    · have hfr := accountFresh_of_local deps.cfg a0 none deps.now
        (hlocal a0 (hrowURI a0 hq1))
      have hv : getAccountByURI deps uri =
          ⟨.ok (a0, none), [Effect.populateAccount a0]⟩ := by
        simp [getAccountByURI, hq1, hfr]
      rw [hv]
      refine ⟨?_, ?_, ?_⟩
      · intro fe hfe
        simp only [List.mem_singleton] at hfe
        rw [hfe]
        rfl
      · intro a ha
        injection ha with h6
        injection h6 with h7
        rw [h7]
      · intro h1 h2
        simp at h1

/-- A stored local account row. -/
def accLocalMe : Account :=
  { id := "M1", uri := "https://local.ex/u/me", domain := "",
    username := "me", createdAt := 2 }

/-- The parsed URI of the local account. -/
def uriLocalMe : Url := ⟨"https", "local.ex", "/u/me"⟩

/-- Environment holding the local row under its URI. -/
def depsLocal : Deps :=
  { depsBase with
      dbAccountByURI := fun s =>
        if s = "https://local.ex/u/me" then .ok (some accLocalMe)
        else .ok none }

/-- C7 witness: the local short-circuit theorem applied to a stored local
row — no transport effects and the row returned with a nil wire object. -/
theorem getAccountByURI_local_short_circuit_witness :
    ((uriLocalMe.host = depsLocal.cfg.host ∨
        uriLocalMe.host = depsLocal.cfg.accountDomain) ∧
      depsLocal.dbAccountByURI uriLocalMe.toStr = .ok (some accLocalMe)) ∧
    ((∀ fe ∈ (getAccountByURI depsLocal uriLocalMe).effects,
        fe.isTransport = false) ∧
      (getAccountByURI depsLocal uriLocalMe).res = .ok (accLocalMe, none)) :=
  ⟨⟨by decide, rfl⟩,
    ⟨(getAccountByURI_local_short_circuit depsLocal uriLocalMe (by decide)
        (fun a ha => by
          simp only [depsLocal, depsBase] at ha
          split at ha
          · injection ha with h6
            injection h6 with h7
            rw [← h7]
            exact Or.inl rfl
          · cases ha)
        (fun a ha => by
          simp only [depsLocal, depsBase] at ha
          cases ha)).1,
      (getAccountByURI_local_short_circuit depsLocal uriLocalMe (by decide)
        (fun a ha => by
          simp only [depsLocal, depsBase] at ha
          split at ha
          · injection ha with h6
            injection h6 with h7
            rw [← h7]
            exact Or.inl rfl
          · cases ha)
        (fun a ha => by
          simp only [depsLocal, depsBase] at ha
          cases ha)).2.1 accLocalMe rfl⟩⟩

/-! ## Per-URI lock and concurrent deduplication (claim C9) -/

/-- A stored remote account still inside its freshness window. -/
def accAliceFresh : Account := { accAlice with fetchedAt := 95 }

/-- C9, counterexample: `enrichAccountSafely` — the critical section entered
under the per-URI lock — performs the webfinger and remote dereference even
for an account that is fresh: there is no freshness re-check after lock
acquisition, so a lock loser proceeding into enrichment does not skip the
fetch. -/
theorem enrichSafely_derefs_fresh_account :
    accountFresh depsNetFail.cfg accAliceFresh none depsNetFail.now =
      true ∧
    (enrichAccountSafely depsNetFail (some uriAlice) accAliceFresh
        none).effects =
      [Effect.finger ("alice") ("r.ex"), Effect.deref (Url.toStr uriAlice)] :=
  ⟨by decide, rfl⟩

/-- C9 (amended): the per-URI critical section applies no freshness gate:
for a non-suspended account, `enrichAccountSafely` performs exactly the
Transport calls of `enrichAccount` even when the account is fresh, so each
caller that reaches enrichment performs its own remote dereference; the
single-row/same-ID outcome for concurrent callers comes from the
AlreadyExists re-read, not from skipping the fetch. -/
theorem enrichSafely_no_freshness_recheck (deps : Deps) (uri? : Option Url)
    (acc : Account) (apub? : Option ApubAcc) (w : Option Nat)
    (hsusp : acc.IsSuspended = false)
    (hfresh : accountFresh deps.cfg acc w deps.now = true) :
    (enrichAccountSafely deps uri? acc apub?).effects.filter
        (fun fe => fe.isTransport) =
      (enrichAccount deps uri? acc apub?).effects.filter
        (fun fe => fe.isTransport) := by
  have hs2 : ¬ (acc.IsSuspended = true) := by simp [hsusp]
  simp only [enrichAccountSafely, if_neg hs2]
  rcases hr : (enrichAccount deps uri? acc apub?).res with e | ⟨latest, apub⟩
  · by_cases h400 : 400 ≤ e.status ∧ acc.IsNew = true
    · simp only [if_pos h400]
    · simp only [if_neg h400]
      by_cases hsc : 400 ≤ e.status
      · simp only [if_pos hsc]
        by_cases hae : e.alreadyExists = true
        · simp only [if_pos hae]
          rcases hdbq : deps.dbAccountByURI
              (enrichAccount deps uri? acc apub?).accPtr.uri with e2 | w2
          · simp [hdbq, Effect.isTransport]
          · rcases w2 with - | winner <;> simp [hdbq, Effect.isTransport]
        · simp only [if_neg hae]
          simp [Effect.isTransport]
      · simp only [if_neg hsc]
        by_cases hae : e.alreadyExists = true
        · simp only [if_pos hae]
          rcases hdbq : deps.dbAccountByURI
              (enrichAccount deps uri? acc apub?).accPtr.uri with e2 | w2
          · simp [hdbq]
          · rcases w2 with - | winner <;> simp [hdbq]
        · simp only [if_neg hae]
  · simp only

/-- C9 witness: the no-re-check theorem applied to the concrete fresh
account — the lock section's transport calls equal the enrichment's own
(and, per the counterexample, include a dereference). -/
theorem enrichSafely_no_freshness_recheck_witness :
    (accAliceFresh.IsSuspended = false ∧
      accountFresh depsNetFail.cfg accAliceFresh none depsNetFail.now =
        true) ∧
    (enrichAccountSafely depsNetFail (some uriAlice) accAliceFresh
        none).effects.filter (fun fe => fe.isTransport) =
      (enrichAccount depsNetFail (some uriAlice) accAliceFresh
        none).effects.filter (fun fe => fe.isTransport) :=
  ⟨⟨by decide, by decide⟩,
    enrichSafely_no_freshness_recheck depsNetFail (some uriAlice)
      accAliceFresh none none (by decide) (by decide)⟩

/-! ## Media failures never abort enrichment (claim C10) -/

/-- When the avatar fetch fails, the latest account keeps the previously
stored avatar attachment ID, which was carried over from the existing
account before any fetch was attempted. -/
theorem fetchRemoteAccountAvatar_err_keeps_existing (deps : Deps)
    (e l : Account)
    (herr : (fetchRemoteAccountAvatar deps e l).2.1.isSome = true) :
    (fetchRemoteAccountAvatar deps e l).1.avatarMediaAttachmentID =
      e.avatarMediaAttachmentID := by
  simp only [fetchRemoteAccountAvatar] at herr ⊢
  repeat' split
  all_goals simp_all

/-- When the header fetch fails, the latest account keeps the previously
stored header attachment ID. -/
theorem fetchRemoteAccountHeader_err_keeps_existing (deps : Deps)
    (e l : Account)
    (herr : (fetchRemoteAccountHeader deps e l).2.1.isSome = true) :
    (fetchRemoteAccountHeader deps e l).1.headerMediaAttachmentID =
      e.headerMediaAttachmentID := by
  simp only [fetchRemoteAccountHeader] at herr ⊢
  repeat' split
  all_goals simp_all

/-- When the data-store writes succeed, the store step always succeeds and
emits its write. -/
theorem enrichStore_success (deps : Deps) (acc l4 : Account) (apub : ApubAcc)
    (hput : ∀ a, deps.putAccount a = none)
    (hupd : ∀ a f, deps.updateAccount a f = none) :
    ∃ l, (enrichStore deps acc l4 apub).1 = .ok (l, apub) ∧
      (∃ fe ∈ (enrichStore deps acc l4 apub).2, fe.isAccountWrite = true) := by
  simp only [enrichStore]
  by_cases hn : acc.IsNew = true
  · simp only [if_pos hn, hput]
    exact ⟨_, rfl, ⟨_, List.mem_singleton_self _, rfl⟩⟩
  · simp only [if_neg hn, hupd]
    exact ⟨_, rfl, ⟨_, List.mem_singleton_self _, rfl⟩⟩

/-- C10: a failure of the avatar (or header) media fetch never makes the
enrichment's persistence stage fail: when the data-store writes succeed,
the stage still persists and returns the latest account together with the
non-nil wire object, and on an avatar-fetch failure the returned account
retains the previously stored avatar attachment ID carried over from the
existing account. -/
theorem enrichPersist_tolerates_media_failure (deps : Deps)
    (acc latest0 : Account) (apub : ApubAcc)
    (hav : (fetchRemoteAccountAvatar deps acc
      { latest0 with id := acc.id, fetchedAt := deps.now }).2.1.isSome =
        true)
    (hput : ∀ a, deps.putAccount a = none)
    (hupd : ∀ a f, deps.updateAccount a f = none) :
    ∃ l, (enrichPersist deps acc latest0 apub).1 = .ok (l, apub) ∧
      l.avatarMediaAttachmentID = acc.avatarMediaAttachmentID ∧
      (∃ fe ∈ (enrichPersist deps acc latest0 apub).2,
        fe.isAccountWrite = true) := by
  simp only [enrichPersist]
  set l1 : Account := { latest0 with id := acc.id, fetchedAt := deps.now }
    with hl1
  set l2 : Account := (fetchRemoteAccountAvatar deps acc l1).1 with hl2
  set l3 : Account := (fetchRemoteAccountHeader deps acc l2).1 with hl3
  have hl2av : l2.avatarMediaAttachmentID = acc.avatarMediaAttachmentID :=
    fetchRemoteAccountAvatar_err_keeps_existing deps acc l1 hav
  have hl3av : l3.avatarMediaAttachmentID = acc.avatarMediaAttachmentID := by
    obtain ⟨hid, hh⟩ := fetchRemoteAccountHeader_only_header deps acc l2
    rw [hl3, hh]
    exact hl2av
  have h4av : ∀ l4, (match fetchRemoteAccountEmojis deps l3 with
      | .error _ => l3
      | .ok r => r.2) = l4 →
      l4.avatarMediaAttachmentID = acc.avatarMediaAttachmentID := by
    intro l4 h4
    rcases he : fetchRemoteAccountEmojis deps l3 with e0 | r
    · rw [he] at h4
      simp only at h4
      rw [← h4]
      exact hl3av
    · rw [he] at h4
      simp only at h4
      obtain ⟨es, ids, hr⟩ :=
        fetchRemoteAccountEmojis_only_emojis deps l3 r.1 r.2 (by rw [he])
      rw [← h4, hr]
      exact hl3av
  obtain ⟨l, hok, fe, hfe, hw⟩ := enrichStore_success deps acc
    (match fetchRemoteAccountEmojis deps l3 with
      | .error _ => l3
      | .ok r => r.2) apub hput hupd
  have hlav : l.avatarMediaAttachmentID = acc.avatarMediaAttachmentID := by
    obtain ⟨-, -, h3⟩ := enrichStore_ok deps acc _ apub l apub hok
    rw [h3]
    exact h4av _ rfl
  exact ⟨l, hok, hlav, ⟨fe, by
    simp only [List.mem_append]
    exact Or.inr hfe, hw⟩⟩

/-- A stored account whose avatar attachment `AV1` is already in the store. -/
def accAv : Account := { accAlice with avatarMediaAttachmentID := "AV1" }

/-- Converter output that advertises a new avatar URL (which will fail to
parse, aborting the media fetch). -/
def latestAv : Account :=
  { username := "alice", uri := "https://r.ex/u/alice", domain := "r.ex",
    avatarRemoteURL := "u" }

/-- C10 witness: the tolerance theorem applied to a concrete failing avatar
fetch — persistence succeeds, the wire object is returned, and the avatar
attachment ID `AV1` is retained. -/
theorem enrichPersist_tolerates_media_failure_witness :
    ((fetchRemoteAccountAvatar depsBase accAv
        { latestAv with
            id := accAv.id,
            fetchedAt := depsBase.now }).2.1.isSome = true) ∧
    (∃ l, (enrichPersist depsBase accAv latestAv {}).1 = .ok (l, {}) ∧
      l.avatarMediaAttachmentID = accAv.avatarMediaAttachmentID ∧
      (∃ fe ∈ (enrichPersist depsBase accAv latestAv {}).2,
        fe.isAccountWrite = true)) :=
  ⟨rfl,
    enrichPersist_tolerates_media_failure depsBase accAv latestAv {} rfl
      (fun a => rfl) (fun a f => rfl)⟩

/-! ## Featured-collection reconciliation (claim C8) -/

/-- Claim-side definition (following the specification's words): a resolved
status is skipped when it is already marked pinned, does not belong to the
collection owner, or is a boost; otherwise its pinned timestamp is set. -/
def specStatusUpdate (deps : Deps) (account : Account) (s : Status) :
    List Effect :=
  if s.pinnedAt ≠ 0 ∨ s.accountURI ≠ account.uri ∨ s.boostOfID ≠ "" then
    []
  else
    [Effect.updateStatus { s with pinnedAt := deps.now } ["pinned_at"]]

/-- The source's per-status handling equals the claim-side skip rule. -/
theorem pinEffects_spec (deps : Deps) (account : Account) (s : Status) :
    pinEffects deps account s = specStatusUpdate deps account s := by
  unfold pinEffects specStatusUpdate
  split_ifs
  all_goals first
    | rfl
    | tauto

/-- The item loop computes exactly the claim-side observed URIs and pin
effects: items without an IRI or with a foreign host contribute nothing;
the remaining items are observed, resolved, and pinned per the skip rule. -/
theorem featuredLoop_spec (deps : Deps) (account : Account)
    (collHost : String) (items : List (Option Url)) :
    featuredLoop deps account collHost items =
      (specObservedURIs items collHost,
        specPinEffects deps account (specObservedURIs items collHost)) := by
  induction items with
  | nil => rfl
  | cons item rest ih =>
    rcases item with - | iri
    · simpa [featuredLoop, processFeaturedItem, specObservedURIs,
        specPinEffects] using ih
    · by_cases hh : iri.host = collHost
      · simp [featuredLoop, processFeaturedItem, hh, specObservedURIs,
          specPinEffects, ih]
      · simp [featuredLoop, processFeaturedItem, hh, specObservedURIs,
          specPinEffects, ih]

/-- The unpin loop computes exactly the claim-side set difference: every
previously pinned status whose URI is not among the observed URIs gets its
pinned timestamp cleared. -/
theorem unpinLoop_spec (uris : List String) (wasPinned : List Status) :
    unpinLoop uris wasPinned = specUnpinEffects wasPinned uris := by
  induction wasPinned with
  | nil => rfl
  | cons s rest ih =>
    by_cases hc : s.uri ∈ uris
    · simp [unpinLoop, specUnpinEffects, hc, ih, List.filter_cons]
    · simp [unpinLoop, specUnpinEffects, hc, ih, List.filter_cons]

/-- C8: the featured-collection reconciliation is a full pass: its effect
trace is exactly the claim-side pin effects over the observed item URIs
(items whose host differs from the collection host rejected; already
pinned, foreign, or boost statuses skipped; the rest pinned) followed by
the claim-side unpin effects (every previously pinned status whose URI is
not among the observed URIs is unpinned), and the pass succeeds. -/
theorem dereferenceAccountFeatured_reconciles (deps : Deps)
    (account : Account) (uri : Url) (items : List (Option Url))
    (wasPinned : List Status)
    (hp : deps.parseUrl account.featuredCollectionURI = some uri)
    (hc : deps.derefCollection uri.toStr = .ok items)
    (hw : deps.pinnedStatuses account.id = .ok wasPinned) :
    (dereferenceAccountFeatured deps account).2 =
      specPinEffects deps account (specObservedURIs items uri.host) ++
        specUnpinEffects wasPinned (specObservedURIs items uri.host) ∧
    (dereferenceAccountFeatured deps account).1 = .ok () := by
  constructor
  · simp [dereferenceAccountFeatured, hp, hc, hw, featuredLoop_spec,
      unpinLoop_spec]
  · simp [dereferenceAccountFeatured, hp, hc, hw]

/-- Previously pinned status S1 (will be unpinned). -/
def stS1 : Status :=
  { id := "s1", uri := "https://c.ex/s1",
    accountURI := "https://c.ex/u/carol", pinnedAt := 7 }

/-- Previously pinned status S2 (still featured; untouched). -/
def stS2 : Status :=
  { id := "s2", uri := "https://c.ex/s2",
    accountURI := "https://c.ex/u/carol", pinnedAt := 8 }

/-- Newly featured status S3 (will be pinned). -/
def stS3 : Status :=
  { id := "s3", uri := "https://c.ex/s3",
    accountURI := "https://c.ex/u/carol" }

/-- The collection owner. -/
def accCarol : Account :=
  { id := "C1", uri := "https://c.ex/u/carol", domain := "c.ex",
    username := "carol", createdAt := 1,
    featuredCollectionURI := "https://c.ex/u/carol/featured" }

/-- The parsed featured-collection URI. -/
def uriFeat : Url := ⟨"https", "c.ex", "/u/carol/featured"⟩

/-- Environment for the reconciliation scenario: the collection now lists
S2 and S3, while S1 and S2 were pinned before. -/
def depsFeat : Deps :=
  { depsBase with
      parseUrl := fun s =>
        if s = "https://c.ex/u/carol/featured" then some uriFeat else none,
      derefCollection := fun _ =>
        .ok [some ⟨"https", "c.ex", "/s2"⟩, some ⟨"https", "c.ex", "/s3"⟩],
      pinnedStatuses := fun _ => .ok [stS1, stS2],
      getStatusByURI := fun s =>
        if s = "https://c.ex/s2" then .found stS2
        else if s = "https://c.ex/s3" then .found stS3
        else .failed }

/-- C8 witness: the reconciliation theorem applied to previous pinned
{S1, S2} and newly observed {S2, S3} — the pass updates exactly S3 (pinned
at now) and S1 (unpinned), leaving S2 untouched. -/
theorem dereferenceAccountFeatured_reconciles_witness :
    (depsFeat.parseUrl accCarol.featuredCollectionURI = some uriFeat ∧
      depsFeat.derefCollection uriFeat.toStr =
        .ok [some ⟨"https", "c.ex", "/s2"⟩, some ⟨"https", "c.ex", "/s3"⟩] ∧
      depsFeat.pinnedStatuses accCarol.id = .ok [stS1, stS2]) ∧
    ((dereferenceAccountFeatured depsFeat accCarol).2 =
      specPinEffects depsFeat accCarol
          (specObservedURIs
            [some ⟨"https", "c.ex", "/s2"⟩, some ⟨"https", "c.ex", "/s3"⟩]
            uriFeat.host) ++
        specUnpinEffects [stS1, stS2]
          (specObservedURIs
            [some ⟨"https", "c.ex", "/s2"⟩, some ⟨"https", "c.ex", "/s3"⟩]
            uriFeat.host) ∧
      (dereferenceAccountFeatured depsFeat accCarol).1 = .ok ()) ∧
    (dereferenceAccountFeatured depsFeat accCarol).2 =
      [Effect.updateStatus { stS3 with pinnedAt := 100 } ["pinned_at"],
        Effect.updateStatus { stS1 with pinnedAt := 0 } ["pinned_at"]] :=
  ⟨⟨rfl, rfl, rfl⟩,
    dereferenceAccountFeatured_reconciles depsFeat accCarol uriFeat
      [some ⟨"https", "c.ex", "/s2"⟩, some ⟨"https", "c.ex", "/s3"⟩]
      [stS1, stS2] rfl rfl rfl,
    rfl⟩

end Deref
